import Mathlib

/-!
Verification of the pcore string-interchange core (Windows implementation,
`src/string/windows.rs`), the release-pool wrapper (`src/release_pool/windows.rs`)
and the error wrapper (`src/error/windows.rs`).

Strings are modelled at the level the Rust code manipulates them:
a Rust `&str` is a list of Unicode scalar values (`Nat` below 0x110000,
excluding the surrogate range), a UTF-16 buffer is a list of 16-bit code
units (`Nat`), and `ParameterString<'a>(&'a [u16], Option<Box<[u16]>>)`
becomes a structure holding the view's contents plus the optional owned
backing buffer's contents.  Fallible or panicking operations return
`Option`.
-/

namespace Pcore

/-- Validity of a single Rust `char`: a Unicode scalar value, i.e. below
0x110000 and outside the surrogate range 0xD800..0xDFFF. -/
def ValidScalar (c : Nat) : Prop :=
  c < 0x110000 ∧ ¬(0xD800 ≤ c ∧ c < 0xE000)

instance (c : Nat) : Decidable (ValidScalar c) := by
  unfold ValidScalar; infer_instance

/-- Validity of a Rust string: every scalar value is valid. -/
def ValidScalars (s : List Nat) : Prop :=
  ∀ c ∈ s, ValidScalar c

instance (s : List Nat) : Decidable (ValidScalars s) := by
  unfold ValidScalars; exact List.decidableBAll _ s

/-- UTF-16 encoding of one scalar value, as performed per item by
`str::encode_utf16` (`char::encode_utf16`): scalars below 0x10000 encode as
themselves; supplementary scalars encode as a high/low surrogate pair. -/
def encodeChar (c : Nat) : List Nat :=
  if c < 0x10000 then [c]
  else [0xD800 + (c - 0x10000) / 0x400, 0xDC00 + (c - 0x10000) % 0x400]

/-- UTF-16 encoding of a string, the code-unit stream produced by
`self.encode_utf16()` in `IntoParameterString for &str`
(src/string/windows.rs lines 216-233). -/
def encodeUtf16 : List Nat → List Nat
  | [] => []
  | c :: cs => encodeChar c ++ encodeUtf16 cs

/-- UTF-16 decoding as performed by `String::from_utf16`, which the code
uses in `OwnedString::to_string` (src/string/windows.rs lines 360-365):
`none` models the `Err` case (unpaired surrogate). -/
def decodeUtf16 : List Nat → Option (List Nat)
  | [] => some []
  | u :: rest =>
    if u < 0xD800 ∨ 0xE000 ≤ u then
      (decodeUtf16 rest).map (fun t => u :: t)
    else if u < 0xDC00 then
      match rest with
      | [] => none
      | u2 :: rest2 =>
        if 0xDC00 ≤ u2 ∧ u2 < 0xE000 then
          (decodeUtf16 rest2).map
            (fun t => (0x10000 + (u - 0xD800) * 0x400 + (u2 - 0xDC00)) :: t)
        else none
    else none

/-- The Rust struct `ParameterString<'a>(&'a [u16], Option<Box<[u16]>>)`
(src/string/windows.rs line 110): `view` is the contents of the borrowed
0-terminated UTF-16 slice, `owned` the contents of the optional owned
backing buffer. -/
structure ParameterString where
  view : List Nat
  owned : Option (List Nat)
deriving Repr, DecidableEq

/-- The release pool marker: on Windows `pub struct ReleasePool;` is a unit
struct (src/release_pool/windows.rs). -/
def ReleasePool : Type := Unit
deriving DecidableEq

/-- The `ReleasePool::new` constructor (a no-op on Windows). -/
def ReleasePool.new : ReleasePool := ()

/-- The conversion `IntoParameterString for &'a str`
(src/string/windows.rs lines 216-233): UTF-16 encode the string, append
one 0 terminator, box the buffer; the view aliases the owned buffer. -/
def strIntoParameterString (s : List Nat) (_pool : ReleasePool) : ParameterString :=
  ⟨encodeUtf16 s ++ [0], some (encodeUtf16 s ++ [0])⟩

/-- The Rust struct `PStr(pub &'static [u16])` (src/string/windows.rs line
238), a static string produced by the `pstr!` macro whose slice is already
UTF-16 with its 0 terminator. -/
structure PStr where
  slice : List Nat
deriving Repr, DecidableEq

/-- The conversion `IntoParameterString for PStr` (src/string/windows.rs
lines 239-243): the view is exactly the static slice and no owned backing
is created. -/
def pstrIntoParameterString (p : PStr) (_pool : ReleasePool) : ParameterString :=
  ⟨p.slice, none⟩

/-- The conversion `IntoParameterString for &'a Path` (src/string/windows.rs
lines 251-260): `U16CString::from_os_str` re-encodes the path as UTF-16 and
fails (`unwrap` panics, modelled as `none`) when the encoded form contains
an interior 0; `into_vec_with_nul` then appends the terminator, and the
boxed buffer backs the view. -/
def pathIntoParameterString (s : List Nat) (_pool : ReleasePool) : Option ParameterString :=
  if 0 ∈ encodeUtf16 s then none
  else some ⟨encodeUtf16 s ++ [0], some (encodeUtf16 s ++ [0])⟩

/-- The Rust struct `U16ZKnownLength<'a>(&'a [u16])` (src/string/windows.rs
line 263): a 0-terminated view of known length. -/
structure U16ZKnownLength where
  slice : List Nat
deriving Repr, DecidableEq

/-- The conversion `IntoParameterString for U16ZKnownLength`
(src/string/windows.rs lines 274-278): borrow the slice, no owned backing. -/
def u16zKnownIntoParameterString (u : U16ZKnownLength) (_pool : ReleasePool) : ParameterString :=
  ⟨u.slice, none⟩

/-- The Rust struct `U16ZErasedLength<'a>(&'a [u16])` (src/string/windows.rs
line 281): a 0-terminated view whose terminator position is unknown. -/
structure U16ZErasedLength where
  slice : List Nat
deriving Repr, DecidableEq

/-- The scan `U16ZErasedLength::len_with_z` (src/string/windows.rs lines
288-296): scan for the first 0 and return its index plus one; if no element
is 0 the Rust code panics, modelled as `none`. -/
def len_with_z : List Nat → Option Nat
  | [] => none
  | u :: rest => if u = 0 then some 1 else (len_with_z rest).map (· + 1)

/-- The method `U16ZErasedLength::find_length` (src/string/windows.rs lines
297-301): shrink the slice to the scanned length, producing a known-length
view; propagates the missing-terminator panic as `none`. -/
def find_length (u : U16ZErasedLength) : Option U16ZKnownLength :=
  (len_with_z u.slice).map (fun n => ⟨u.slice.take n⟩)

/-- The conversion `IntoParameterString for &U16ZErasedLength`
(src/string/windows.rs lines 311-321): scan for the terminator and borrow
the prefix of that length; propagates the missing-terminator panic as
`none`. -/
def erasedIntoParameterString (u : U16ZErasedLength) (_pool : ReleasePool) :
    Option ParameterString :=
  (len_with_z u.slice).map (fun n => ⟨u.slice.take n, none⟩)

/-- The Rust struct `OwnedString(Box<[u16]>)` (src/string/windows.rs line
343). -/
structure OwnedString where
  buf : List Nat
deriving Repr, DecidableEq

/-- The constructor `OwnedString::new` applied to an already-converted
`ParameterString` (src/string/windows.rs lines 345-358): move the owned
backing buffer when present, otherwise clone the borrowed slice. -/
def OwnedString.ofParameterString (ps : ParameterString) : OwnedString :=
  match ps with
  | ⟨_, some b⟩ => ⟨b⟩
  | ⟨slice, none⟩ => ⟨slice⟩

/-- The method `OwnedString::to_string` (src/string/windows.rs lines
360-365): `split_last().unwrap()` drops the final code unit (panicking on an
empty buffer, modelled as `none`), then `String::from_utf16(..).unwrap()`
decodes (panicking on invalid UTF-16, modelled as `none`). -/
def OwnedString.to_string (o : OwnedString) : Option (List Nat) :=
  if o.buf = [] then none
  else decodeUtf16 o.buf.dropLast

/-- The conversion `IntoParameterString for &'a OwnedString`
(src/string/windows.rs lines 367-371): borrow the owned buffer as the view,
no new backing. -/
def ownedIntoParameterString (o : OwnedString) (_pool : ReleasePool) : ParameterString :=
  ⟨o.buf, none⟩

/-- The equality `PartialEq for ParameterString` (src/string/windows.rs
lines 118-122): compares only the `.0` view slice. -/
def paramEq (a b : ParameterString) : Bool :=
  a.view == b.view

/-- The hash `Hash for ParameterString` (src/string/windows.rs lines
125-129): feeds only the `.0` view slice to the hasher, modelled as an
arbitrary function of the data given to the hasher. -/
def paramHash (hashFn : List Nat → Nat) (s : ParameterString) : Nat :=
  hashFn s.view

/-- The overlay `ICantBelieveItsNotHString<'a>(&'a c_void, Option<Box<[u16]>>)`
(src/string/windows.rs line 28): a reference to the native header describing
the borrowed view, plus the transitively kept-alive backing buffer. -/
structure Overlay where
  viewRef : List Nat
  backing : Option (List Nat)
deriving Repr, DecidableEq

/-- The trampoline `into_hstring_trampoline` (src/string/windows.rs lines
183-192) applied to an already-converted `ParameterString`: it computes the
native length as view length minus one, calls the external primitive
`WindowsCreateStringReference` — modelled as an oracle deciding success from
the buffer and the reported length — and `unwrap`s the result, so a reported
failure panics (`none`) and success yields the overlay over the view with
the backing buffer kept alive. -/
def into_hstring_trampoline (native : List Nat → Nat → Bool)
    (ps : ParameterString) : Option Overlay :=
  let nativeLen := ps.view.length - 1
  if native ps.view nativeLen then some ⟨ps.view, ps.owned⟩ else none

/-- Events observable on the native release-pool resource. -/
inductive PoolEvent where
  | acquire
  | release
deriving Repr, DecidableEq

/-- The safe wrapper `autoreleasepool` (src/release_pool/windows.rs lines
7-10 and src/release_pool/macos.rs lines 8-11): create a pool, run the
closure with a reference to it, and drop the pool when the scope ends —
Rust runs the drop on every exit path, so the closure is modelled as
returning `Except` and the release event is recorded after the closure's
outcome, successful or not, before the result is returned. -/
def autoreleasepool {ε α : Type} (f : ReleasePool → Except ε α) :
    Except ε α × List PoolEvent :=
  let pool := ReleasePool.new
  let r := f pool
  (r, [PoolEvent.acquire, PoolEvent.release])

/-- The error wrapper `Error(WIN32_ERROR)` (src/error/windows.rs line 5):
wraps one native error code. -/
structure Error where
  code : Nat
deriving Repr, DecidableEq

/-- The native error-description primitive. Modelled from the spec: the
platform runtime's "render a human-readable description of an error value"
primitive (spec section 6), external to this crate. -/
def nativeDescription (e : Error) : List Nat :=
  [e.code]

/-- The formatting `Display for Error` (src/error/windows.rs lines 37-41 and
src/error/macos.rs lines 27-31): the body formats `self` with `{}`, which
invokes this same `Display` implementation again, so the recursion has no
base case; modelled with explicit fuel, `none` meaning no output was
produced within the given recursion depth. -/
def errorDisplay : Nat → Error → Option (List Nat)
  | 0, _ => none
  | n + 1, e => errorDisplay n e

/-- Well-formedness of a native view buffer: non-empty and ending in the
terminator code unit 0. -/
def terminatedView (v : List Nat) : Prop :=
  v ≠ [] ∧ v.getLast? = some 0

instance (v : List Nat) : Decidable (terminatedView v) := by
  unfold terminatedView; infer_instance

/-! Helper lemmas about the terminator scan. -/

lemma len_with_z_of_mem (l : List Nat) (h : 0 ∈ l) :
    len_with_z l = some (l.indexOf 0 + 1) := by
  induction l with
  | nil => cases h
  | cons u rest ih =>
    by_cases hu : u = 0
    · subst hu
      simp [len_with_z, List.indexOf_cons_self]
    · have hm : 0 ∈ rest := by
        rcases List.mem_cons.mp h with h0 | h0
        · exact absurd h0.symm hu
        · exact h0
      have hidx : (u :: rest).indexOf 0 = rest.indexOf 0 + 1 :=
        List.indexOf_cons_ne rest hu
      simp [len_with_z, hu, ih hm, hidx]

lemma len_with_z_of_not_mem (l : List Nat) (h : 0 ∉ l) :
    len_with_z l = none := by
  induction l with
  | nil => rfl
  | cons u rest ih =>
    have hu : ¬ u = 0 := fun he => h (he ▸ List.mem_cons_self u rest)
    have hm : 0 ∉ rest := fun hx => h (List.mem_cons_of_mem _ hx)
    simp [len_with_z, hu, ih hm]

lemma len_with_z_take (l : List Nat) (n : Nat) (h : len_with_z l = some n) :
    1 ≤ n ∧ terminatedView (l.take n) := by
  induction l generalizing n with
  | nil => simp [len_with_z] at h
  | cons u rest ih =>
    by_cases hu : u = 0
    · subst hu
      have hn : n = 1 := by
        simp [len_with_z] at h
        omega
      subst hn
      exact ⟨Nat.le_refl 1, by simp [terminatedView]⟩
    · simp only [len_with_z, if_neg hu, Option.map_eq_some'] at h
      obtain ⟨m, hm, rfl⟩ := h
      obtain ⟨h1, hne, hlast⟩ := ih m hm
      refine ⟨by omega, ?_, ?_⟩
      · simp [List.take_succ_cons]
      · rw [List.take_succ_cons]
        obtain ⟨b, t, hbt⟩ := List.exists_cons_of_ne_nil hne
        rw [hbt] at hlast ⊢
        rw [List.getLast?_cons_cons]
        exact hlast

/-! Helper lemmas about UTF-16 decoding. -/

lemma decode_basic (u : Nat) (rest : List Nat) (h : u < 0xD800 ∨ 0xE000 ≤ u) :
    decodeUtf16 (u :: rest) = (decodeUtf16 rest).map (fun t => u :: t) := by
  cases rest with
  | nil =>
    simp only [decodeUtf16]
    rw [if_pos h]
  | cons u2 rest2 =>
    simp only [decodeUtf16]
    rw [if_pos h]

lemma decode_pair (u u2 : Nat) (rest : List Nat)
    (h1 : 0xD800 ≤ u) (h2 : u < 0xDC00) (h3 : 0xDC00 ≤ u2) (h4 : u2 < 0xE000) :
    decodeUtf16 (u :: u2 :: rest) =
      (decodeUtf16 rest).map
        (fun t => (0x10000 + (u - 0xD800) * 0x400 + (u2 - 0xDC00)) :: t) := by
  have hno : ¬(u < 0xD800 ∨ 0xE000 ≤ u) := by omega
  simp only [decodeUtf16]
  rw [if_neg hno, if_pos h2, if_pos ⟨h3, h4⟩]

lemma decode_encode (s : List Nat) (h : ValidScalars s) :
    decodeUtf16 (encodeUtf16 s) = some s := by
  induction s with
  | nil => rfl
  | cons c cs ih =>
    have hc : ValidScalar c := h c (List.mem_cons_self c cs)
    have hcs : ValidScalars cs := fun x hx => h x (List.mem_cons_of_mem _ hx)
    obtain ⟨hlt, hsurr⟩ := hc
    by_cases hbmp : c < 0x10000
    · have hb : c < 0xD800 ∨ 0xE000 ≤ c := by omega
      simp only [encodeUtf16, encodeChar, if_pos hbmp, List.singleton_append]
      rw [decode_basic c _ hb, ih hcs]
      rfl
    · have hv1 : c - 0x10000 < 0x100000 := by omega
      have hdiv : (c - 0x10000) / 0x400 < 0x400 := by
        apply Nat.div_lt_of_lt_mul
        omega
      have hmod : (c - 0x10000) % 0x400 < 0x400 := Nat.mod_lt _ (by omega)
      simp only [encodeUtf16, encodeChar, if_neg hbmp, List.cons_append,
        List.singleton_append, List.nil_append]
      rw [decode_pair _ _ _ (by omega) (by omega) (by omega) (by omega), ih hcs]
      simp only [Option.map_some']
      have hrecon : 0x10000 + ((0xD800 + (c - 0x10000) / 0x400) - 0xD800) * 0x400 +
          ((0xDC00 + (c - 0x10000) % 0x400) - 0xDC00) = c := by
        have hd := Nat.div_add_mod (c - 0x10000) 0x400
        have e1 : (0xD800 + (c - 0x10000) / 0x400) - 0xD800 = (c - 0x10000) / 0x400 := by
          omega
        have e2 : (0xDC00 + (c - 0x10000) % 0x400) - 0xDC00 = (c - 0x10000) % 0x400 := by
          omega
        rw [e1, e2]
        omega
      rw [hrecon]

/-! The claims. -/

/-- C1: for every valid Rust string, converting it into a `ParameterString`
(UTF-16 encode plus terminator), constructing an `OwnedString` from it, and
decoding back with `to_string` yields the original string. -/
theorem C1_owned_string_round_trip (s : List Nat) (h : ValidScalars s)
    (pool : ReleasePool) :
    (OwnedString.ofParameterString (strIntoParameterString s pool)).to_string =
      some s := by
  have hb : OwnedString.ofParameterString (strIntoParameterString s pool) =
      ⟨encodeUtf16 s ++ [0]⟩ := rfl
  rw [hb]
  unfold OwnedString.to_string
  rw [if_neg (by simp : ¬(encodeUtf16 s ++ [0] : List Nat) = [])]
  rw [List.dropLast_concat]
  exact decode_encode s h

/-- Witness for C1 at the concrete string "h😀" (scalar values 104 and
128512, the latter exercising the surrogate-pair path). -/
theorem C1_owned_string_round_trip_witness :
    ValidScalars [104, 128512] ∧
    (OwnedString.ofParameterString
      (strIntoParameterString [104, 128512] ReleasePool.new)).to_string =
        some [104, 128512] :=
  ⟨by decide, C1_owned_string_round_trip [104, 128512] (by decide) ReleasePool.new⟩

/-- C2: converting the empty string produces the one-element view `[0]`:
non-empty (hence a non-null pointer in the Rust code), content length 0,
terminator present at index 0, and the native length the trampoline would
report (view length minus one) is 0. -/
theorem C2_empty_string_valid (pool : ReleasePool) :
    (strIntoParameterString [] pool).view = [0] ∧
    terminatedView (strIntoParameterString [] pool).view ∧
    (strIntoParameterString [] pool).view.length = 1 ∧
    (strIntoParameterString [] pool).view.length - 1 = 0 :=
  ⟨rfl, by constructor <;> simp [strIntoParameterString, encodeUtf16], rfl, rfl⟩

/-- C3: on every erased-length buffer containing a 0, `find_length` returns
the prefix up to and including the first 0, whose length is the index of the
first 0 plus one; in particular on `[104,105,0,0,0]` it returns the
length-3 view `[104,105,0]`, excluding the trailing two elements. -/
theorem C3_find_length_first_zero :
    (∀ u : U16ZErasedLength, 0 ∈ u.slice →
      find_length u = some ⟨u.slice.take (u.slice.indexOf 0 + 1)⟩ ∧
      (u.slice.take (u.slice.indexOf 0 + 1)).length = u.slice.indexOf 0 + 1) ∧
    find_length ⟨[104, 105, 0, 0, 0]⟩ = some ⟨[104, 105, 0]⟩ ∧
    ([104, 105, 0] : List Nat).length = 3 := by
  refine ⟨?_, by decide, by decide⟩
  intro u h
  constructor
  · unfold find_length
    rw [len_with_z_of_mem u.slice h]
    rfl
  · rw [List.length_take]
    have hlt := List.indexOf_lt_length.mpr h
    omega

/-- Witness for C3 at the buffer `[104,105,0,0,0]`. -/
theorem C3_find_length_first_zero_witness :
    (0 : Nat) ∈ ([104, 105, 0, 0, 0] : List Nat) ∧
    find_length ⟨[104, 105, 0, 0, 0]⟩ =
      some ⟨([104, 105, 0, 0, 0] : List Nat).take
        (([104, 105, 0, 0, 0] : List Nat).indexOf 0 + 1)⟩ :=
  ⟨by decide, (C3_find_length_first_zero.1 ⟨[104, 105, 0, 0, 0]⟩ (by decide)).1⟩

/-- C4: on every erased-length buffer with no 0 element, the terminator scan
`len_with_z` panics (models as `none`), and so do `find_length` and
`into_parameter_string`; no valid-looking truncated view is returned. -/
theorem C4_missing_terminator_fatal (u : U16ZErasedLength)
    (h : 0 ∉ u.slice) (pool : ReleasePool) :
    len_with_z u.slice = none ∧ find_length u = none ∧
    erasedIntoParameterString u pool = none := by
  have hl := len_with_z_of_not_mem u.slice h
  exact ⟨hl, by simp [find_length, hl], by simp [erasedIntoParameterString, hl]⟩

/-- Witness for C4 at the unterminated buffer `[104,105]`. -/
theorem C4_missing_terminator_fatal_witness :
    (0 : Nat) ∉ ([104, 105] : List Nat) ∧ find_length ⟨[104, 105]⟩ = none :=
  ⟨by decide,
    (C4_missing_terminator_fatal ⟨[104, 105]⟩ (by decide) ReleasePool.new).2.1⟩

/-- C5: converting a static string `PStr` returns a `ParameterString` whose
view is exactly the static slice and whose owned-backing field is `None`
(no heap allocation). -/
theorem C5_pstr_zero_copy (p : PStr) (pool : ReleasePool) :
    (pstrIntoParameterString p pool).view = p.slice ∧
    (pstrIntoParameterString p pool).owned = none :=
  ⟨rfl, rfl⟩

/-- C6: equality and hashing of `ParameterString` depend only on the view
contents: equal views give `paramEq` true and identical hashes whatever the
owned backing of either side is. -/
theorem C6_eq_hash_view_only (a b : ParameterString) (h : a.view = b.view)
    (hashFn : List Nat → Nat) :
    paramEq a b = true ∧ paramHash hashFn a = paramHash hashFn b :=
  ⟨by simp [paramEq, h], by simp [paramHash, h]⟩

/-- Witness for C6: an owned-backed conversion result equals a borrowed
string with the same code units. -/
theorem C6_eq_hash_view_only_witness :
    (ParameterString.mk [104, 0] (some [104, 0])).view =
      (ParameterString.mk [104, 0] none).view ∧
    paramEq ⟨[104, 0], some [104, 0]⟩ ⟨[104, 0], none⟩ = true ∧
    paramHash List.length ⟨[104, 0], some [104, 0]⟩ =
      paramHash List.length ⟨[104, 0], none⟩ :=
  ⟨rfl, C6_eq_hash_view_only ⟨[104, 0], some [104, 0]⟩ ⟨[104, 0], none⟩ rfl
    List.length⟩

/-- C7: if the native create-reference primitive reports failure, the
trampoline panics (models as `none`) and never returns a partially
initialized overlay. -/
theorem C7_trampoline_failure_fatal (native : List Nat → Nat → Bool)
    (ps : ParameterString)
    (h : native ps.view (ps.view.length - 1) = false) :
    into_hstring_trampoline native ps = none := by
  unfold into_hstring_trampoline
  simp [h]

/-- Witness for C7 with an always-failing native primitive. -/
theorem C7_trampoline_failure_fatal_witness :
    (fun (_ : List Nat) (_ : Nat) => false) ([0] : List Nat)
      (([0] : List Nat).length - 1) = false ∧
    into_hstring_trampoline (fun _ _ => false) ⟨[0], none⟩ = none :=
  ⟨rfl, C7_trampoline_failure_fatal (fun _ _ => false) ⟨[0], none⟩ rfl⟩

/-- C9: the safe wrapper `autoreleasepool` creates a pool, supplies it to
the closure, returns exactly the closure's result, and records the release
after the closure's outcome — whether success or propagated failure — and
before returning. -/
theorem C9_autoreleasepool_scoped {ε α : Type} (f : ReleasePool → Except ε α) :
    (autoreleasepool f).1 = f ReleasePool.new ∧
    (autoreleasepool f).2 = [PoolEvent.acquire, PoolEvent.release] :=
  ⟨rfl, rfl⟩

/-- C10: every `ParameterString` produced by a public `IntoParameterString`
implementation has a non-empty view ending in the terminator 0 — for `&str`
and `Path` unconditionally, for `PStr`, `U16ZKnownLength` and
`&OwnedString` given their slice invariant, and for `U16ZErasedLength`
whenever the conversion returns — so the native length (view length minus
one) never underflows. -/
theorem C10_views_terminated :
    (∀ (s : List Nat) (pool : ReleasePool),
      terminatedView (strIntoParameterString s pool).view) ∧
    (∀ (p : PStr) (pool : ReleasePool), terminatedView p.slice →
      terminatedView (pstrIntoParameterString p pool).view) ∧
    (∀ (s : List Nat) (pool : ReleasePool) (ps : ParameterString),
      pathIntoParameterString s pool = some ps → terminatedView ps.view) ∧
    (∀ (u : U16ZKnownLength) (pool : ReleasePool), terminatedView u.slice →
      terminatedView (u16zKnownIntoParameterString u pool).view) ∧
    (∀ (u : U16ZErasedLength) (pool : ReleasePool) (ps : ParameterString),
      erasedIntoParameterString u pool = some ps → terminatedView ps.view) ∧
    (∀ (o : OwnedString) (pool : ReleasePool), terminatedView o.buf →
      terminatedView (ownedIntoParameterString o pool).view) ∧
    (∀ v : List Nat, terminatedView v → v.length - 1 + 1 = v.length) := by
  refine ⟨?_, ?_, ?_, ?_, ?_, ?_, ?_⟩
  · intro s pool
    show terminatedView (encodeUtf16 s ++ [0])
    exact ⟨by simp, List.getLast?_concat _⟩
  · intro p pool h
    exact h
  · intro s pool ps h
    by_cases hz : 0 ∈ encodeUtf16 s
    · simp [pathIntoParameterString, hz] at h
    · simp only [pathIntoParameterString, if_neg hz, Option.some.injEq] at h
      rw [← h]
      exact ⟨by simp, List.getLast?_concat _⟩
  · intro u pool h
    exact h
  · intro u pool ps h
    simp only [erasedIntoParameterString, Option.map_eq_some'] at h
    obtain ⟨n, hn, hps⟩ := h
    rw [← hps]
    exact (len_with_z_take u.slice n hn).2
  · intro o pool h
    exact h
  · intro v hv
    have : 0 < v.length := List.length_pos.mpr hv.1
    omega

/-- Witness for C10, exercising every conversion at a concrete input. -/
theorem C10_views_terminated_witness :
    terminatedView (strIntoParameterString [104] ReleasePool.new).view ∧
    terminatedView (pstrIntoParameterString ⟨[104, 0]⟩ ReleasePool.new).view ∧
    (pathIntoParameterString [104] ReleasePool.new =
      some ⟨[104, 0], some [104, 0]⟩ ∧
      terminatedView (ParameterString.mk [104, 0] (some [104, 0])).view) ∧
    terminatedView (u16zKnownIntoParameterString ⟨[0]⟩ ReleasePool.new).view ∧
    (erasedIntoParameterString ⟨[104, 0, 7]⟩ ReleasePool.new =
      some ⟨[104, 0], none⟩ ∧
      terminatedView (ParameterString.mk [104, 0] none).view) ∧
    terminatedView (ownedIntoParameterString ⟨[0]⟩ ReleasePool.new).view ∧
    ([0] : List Nat).length - 1 + 1 = ([0] : List Nat).length :=
  ⟨C10_views_terminated.1 [104] ReleasePool.new,
   C10_views_terminated.2.1 ⟨[104, 0]⟩ ReleasePool.new (by decide),
   ⟨by decide, C10_views_terminated.2.2.1 [104] ReleasePool.new
     ⟨[104, 0], some [104, 0]⟩ (by decide)⟩,
   C10_views_terminated.2.2.2.1 ⟨[0]⟩ ReleasePool.new (by decide),
   ⟨by decide, C10_views_terminated.2.2.2.2.1 ⟨[104, 0, 7]⟩ ReleasePool.new
     ⟨[104, 0], none⟩ (by decide)⟩,
   C10_views_terminated.2.2.2.2.2.1 ⟨[0]⟩ ReleasePool.new (by decide),
   C10_views_terminated.2.2.2.2.2.2 [0] (by decide)⟩

/-- C8 evidence: the code's `Display for Error` formats `self` with a plain
display placeholder, re-entering the same implementation with no base case,
so no amount of recursion depth ever produces output — the formatting never
terminates and never reaches the native description mechanism. -/
theorem C8_error_display_diverges (fuel : Nat) (e : Error) :
    errorDisplay fuel e = none := by
  induction fuel with
  | zero => rfl
  | succ n ih => simpa only [errorDisplay] using ih

end Pcore
